import Mathlib

/-!
Verification of the warehouse bin-assignment optimization notebook
(`Notebooks/pulp_optimization.ipynb`).

The notebook hard-codes ten materials and five bins, builds a boolean
compatibility matrix, formulates a 0/1 integer program with PuLP
(one binary variable per (material, bin) pair, a coverage constraint
`== 1` per material, a capacity constraint per bin, and one explicit
inequality `x[i][b] <= compatibility[(i,b)]` per pair), solves it, and
prints every pair whose variable value is 1 together with the objective
value.

This file shallowly embeds the notebook: the data frames become lists of
records, the compatibility dictionary becomes an association list built
by the same double loop, the `pandas` `set_index(...).loc[...]` lookups
become `List.find?` on the record lists, and the model's constraints
become decidable predicates on an assignment `x : String → String → Nat`
(the PuLP binary variables).  All numeric data in the notebook is
integral, so `Nat` is an exact embedding.
-/

namespace BinAssign

/-- A row of the `materials` data frame. -/
structure Material where
  material : String
  frequency : Nat
  size : Nat
  tag : String
deriving DecidableEq

/-- A row of the `bins` data frame. -/
structure Bin where
  bin : String
  capacity : Nat
  distance : Nat
  btype : String
deriving DecidableEq

/-- The hard-coded `materials` data frame of the notebook. -/
def materials : List Material :=
  [⟨"M1", 3, 5, "fragile"⟩, ⟨"M2", 1, 4, "regular"⟩, ⟨"M3", 2, 6, "hazardous"⟩,
   ⟨"M4", 3, 7, "regular"⟩, ⟨"M5", 2, 3, "regular"⟩, ⟨"M6", 1, 2, "hazardous"⟩,
   ⟨"M7", 3, 6, "fragile"⟩, ⟨"M8", 2, 5, "regular"⟩, ⟨"M9", 1, 4, "hazardous"⟩,
   ⟨"M10", 3, 6, "fragile"⟩]

/-- The hard-coded `bins` data frame of the notebook. -/
def bins : List Bin :=
  [⟨"B1", 15, 1, "safe"⟩, ⟨"B2", 20, 2, "regular"⟩, ⟨"B3", 10, 3, "special"⟩,
   ⟨"B4", 25, 1, "regular"⟩, ⟨"B5", 12, 4, "safe"⟩]

/-- The column `materials['material']` (the loop index of the notebook). -/
def materialNames (ms : List Material) : List String := ms.map Material.material

/-- The column `bins['bin']`. -/
def binNames (bs : List Bin) : List String := bs.map Bin.bin

/-- The body of the compatibility double loop: `0` when the item is
fragile and the bin is not safe, `0` when the item is hazardous and the
bin is not special, else `1`. -/
def compatEntry (item : Material) (b : Bin) : Nat :=
  if item.tag = "fragile" ∧ b.btype ≠ "safe" then 0
  else if item.tag = "hazardous" ∧ b.btype ≠ "special" then 0
  else 1

/-- The `compatibility` dictionary of Step 2, as the association list
produced by the double loop over `materials.iterrows()` and
`bins.iterrows()`. -/
def compatMatrixOf (ms : List Material) (bs : List Bin) :
    List ((String × String) × Nat) :=
  ms.flatMap (fun item => bs.map (fun b => ((item.material, b.bin), compatEntry item b)))

/-- The notebook's concrete compatibility dictionary. -/
def compatMatrix : List ((String × String) × Nat) := compatMatrixOf materials bins

/-- Dictionary access `compatibility[(i, b)]`. -/
def compatibility (ms : List Material) (bs : List Bin) (i b : String) : Nat :=
  ((compatMatrixOf ms bs).lookup (i, b)).getD 0

/-- `materials.set_index('material').loc[i, 'frequency']`. -/
def freqLookup (ms : List Material) (i : String) : Nat :=
  ((ms.find? (fun m => m.material = i)).map Material.frequency).getD 0

/-- `materials.set_index('material').loc[i, 'size']`. -/
def sizeLookup (ms : List Material) (i : String) : Nat :=
  ((ms.find? (fun m => m.material = i)).map Material.size).getD 0

/-- `bins.set_index('bin').loc[b, 'distance']`. -/
def distLookup (bs : List Bin) (b : String) : Nat :=
  ((bs.find? (fun bb => bb.bin = b)).map Bin.distance).getD 0

/-- `bins.set_index('bin').loc[b, 'capacity']`. -/
def capLookup (bs : List Bin) (b : String) : Nat :=
  ((bs.find? (fun bb => bb.bin = b)).map Bin.capacity).getD 0

/-- The index set of `LpVariable.dicts("assign", (materials['material'], bins['bin']))`:
one decision variable per (material, bin) pair, compatible or not. -/
def modelVariables (ms : List Material) (bs : List Bin) : List (String × String) :=
  (materialNames ms).flatMap (fun i => (binNames bs).map (fun b => (i, b)))

/-- The pairs for which the notebook adds an explicit constraint
`model += x[i][b] <= compatibility[(i, b)]` (the double loop of
"Constraint: respect compatibility"). -/
def compatConstraintPairs (ms : List Material) (bs : List Bin) : List (String × String) :=
  (materialNames ms).flatMap (fun i => (binNames bs).map (fun b => (i, b)))

/-- The objective `lpSum(x[i][b] * frequency[i] * distance[b] for i ... for b ...)`. -/
def objectiveVal (ms : List Material) (bs : List Bin) (x : String → String → Nat) : Nat :=
  ((materialNames ms).map (fun i =>
    ((binNames bs).map (fun b => x i b * freqLookup ms i * distLookup bs b)).sum)).sum

/-- `cat=LpBinary`: every decision variable takes value 0 or 1. -/
def binaryOn (ms : List Material) (bs : List Bin) (x : String → String → Nat) : Prop :=
  ∀ i ∈ materialNames ms, ∀ b ∈ binNames bs, x i b = 0 ∨ x i b = 1

/-- "Constraint: each material assigned to one bin":
`lpSum(x[i][b] for b in bins['bin']) == 1` for every material. -/
def coverage (ms : List Material) (bs : List Bin) (x : String → String → Nat) : Prop :=
  ∀ i ∈ materialNames ms, ((binNames bs).map (fun b => x i b)).sum = 1

/-- "Constraint: bin capacity":
`lpSum(x[i][b] * size[i] for i in materials['material']) <= capacity[b]`. -/
def capacityCon (ms : List Material) (bs : List Bin) (x : String → String → Nat) : Prop :=
  ∀ b ∈ binNames bs,
    ((materialNames ms).map (fun i => x i b * sizeLookup ms i)).sum ≤ capLookup bs b

/-- "Constraint: respect compatibility": `x[i][b] <= compatibility[(i, b)]`. -/
def compatCon (ms : List Material) (bs : List Bin) (x : String → String → Nat) : Prop :=
  ∀ i ∈ materialNames ms, ∀ b ∈ binNames bs, x i b ≤ compatibility ms bs i b

/-- An assignment satisfying the whole model built by the notebook. -/
def feasible (ms : List Material) (bs : List Bin) (x : String → String → Nat) : Prop :=
  binaryOn ms bs x ∧ coverage ms bs x ∧ capacityCon ms bs x ∧ compatCon ms bs x

instance (ms : List Material) (bs : List Bin) (x : String → String → Nat) :
    Decidable (binaryOn ms bs x) :=
  inferInstanceAs (Decidable (∀ i ∈ materialNames ms, ∀ b ∈ binNames bs,
    x i b = 0 ∨ x i b = 1))

instance (ms : List Material) (bs : List Bin) (x : String → String → Nat) :
    Decidable (coverage ms bs x) :=
  inferInstanceAs (Decidable (∀ i ∈ materialNames ms,
    ((binNames bs).map (fun b => x i b)).sum = 1))

instance (ms : List Material) (bs : List Bin) (x : String → String → Nat) :
    Decidable (capacityCon ms bs x) :=
  inferInstanceAs (Decidable (∀ b ∈ binNames bs,
    ((materialNames ms).map (fun i => x i b * sizeLookup ms i)).sum ≤ capLookup bs b))

instance (ms : List Material) (bs : List Bin) (x : String → String → Nat) :
    Decidable (compatCon ms bs x) :=
  inferInstanceAs (Decidable (∀ i ∈ materialNames ms, ∀ b ∈ binNames bs,
    x i b ≤ compatibility ms bs i b))

instance (ms : List Material) (bs : List Bin) (x : String → String → Nat) :
    Decidable (feasible ms bs x) :=
  inferInstanceAs (Decidable (binaryOn ms bs x ∧ coverage ms bs x ∧
    capacityCon ms bs x ∧ compatCon ms bs x))

/-- The assignment printed in the notebook's recorded output cell
(`M1 -> B1`, `M2 -> B4`, `M3 -> B3`, `M4 -> B4`, `M5 -> B4`, `M6 -> B3`,
`M8 -> B4`, `M10 -> B1`; no line for `M7` or `M9`). -/
def recordedAssign : String → String → Nat := fun i b =>
  if (i, b) ∈ ([("M1", "B1"), ("M2", "B4"), ("M3", "B3"), ("M4", "B4"),
                ("M5", "B4"), ("M6", "B3"), ("M8", "B4"), ("M10", "B1")] :
      List (String × String)) then 1 else 0

/-- The output loop: `for i ...: for b ...: if x[i][b].varValue == 1: print(i -> b)`,
as the list of printed (material, bin) lines in print order. -/
def reportLines (x : String → String → Nat) : List (String × String) :=
  (materialNames materials).flatMap (fun i =>
    ((binNames bins).filter (fun b => x i b = 1)).map (fun b => (i, b)))

/-- The re-derivation of the objective demanded by the specification
(§4.5): sum, over the items the returned assignment places, of
`item.frequency × slot.cost` (the bin's distance), computed directly
from the assignment rather than from the solver's objective expression. -/
def recomputedObjective (ms : List Material) (bs : List Bin)
    (x : String → String → Nat) : Nat :=
  (ms.map (fun m =>
    ((bs.filter (fun b => x m.material b.bin = 1)).map
      (fun b => m.frequency * b.distance)).sum)).sum

/-! ### Helper lemmas about the `pandas`-style lookups and the dictionary -/

lemma find_key_eq_self {α : Type} (key : α → String) {l : List α}
    (hnd : (l.map key).Nodup) {a : α} (ha : a ∈ l) :
    l.find? (fun c => key c = key a) = some a := by
  induction l with
  | nil => cases ha
  | cons c t ih =>
    rw [List.map_cons, List.nodup_cons] at hnd
    rcases List.mem_cons.mp ha with rfl | hat
    · exact List.find?_cons_of_pos _ (by simp)
    · have hne : key c ≠ key a := fun h =>
        hnd.1 (h ▸ List.mem_map_of_mem key hat)
      rw [List.find?_cons_of_neg _ (by simp [hne])]
      exact ih hnd.2 hat

lemma sum_map_mul_binary {α : Type} (l : List α) (v g : α → Nat)
    (hb : ∀ a ∈ l, v a = 0 ∨ v a = 1) :
    (l.map (fun a => v a * g a)).sum = ((l.filter (fun a => v a = 1)).map g).sum := by
  induction l with
  | nil => rfl
  | cons c t ih =>
    have hc := hb c (List.mem_cons_self c t)
    have ht : ∀ a ∈ t, v a = 0 ∨ v a = 1 := fun a ha => hb a (List.mem_cons_of_mem c ha)
    rcases hc with h0 | h1
    · simp [List.filter_cons, h0, ih ht]
    · simp [List.filter_cons, h1, ih ht]

lemma lookup_block_skip (am i b : String) (hne : i ≠ am) (f : Bin → Nat)
    (bs : List Bin) (rest : List ((String × String) × Nat)) :
    ((bs.map (fun c => ((am, c.bin), f c))) ++ rest).lookup (i, b) =
      rest.lookup (i, b) := by
  induction bs with
  | nil => rfl
  | cons c t ih =>
    rw [List.map_cons, List.cons_append, List.lookup_cons]
    have : ((i, b) == (am, c.bin)) = false := by
      simp [Prod.ext_iff, hne]
    rw [this]
    exact ih

lemma lookup_block_found (am : String) (f : Bin → Nat)
    (bs : List Bin) (hndb : (bs.map Bin.bin).Nodup)
    {b : Bin} (hb : b ∈ bs) (rest : List ((String × String) × Nat)) :
    ((bs.map (fun c => ((am, c.bin), f c))) ++ rest).lookup (am, b.bin) =
      some (f b) := by
  induction bs with
  | nil => cases hb
  | cons c t ih =>
    rw [List.map_cons, List.nodup_cons] at hndb
    rw [List.map_cons, List.cons_append, List.lookup_cons]
    rcases List.mem_cons.mp hb with rfl | hbt
    · simp
    · have hne : b.bin ≠ c.bin := fun h =>
        hndb.1 (h ▸ List.mem_map_of_mem Bin.bin hbt)
      have : ((am, b.bin) == (am, c.bin)) = false := by
        simp [Prod.ext_iff, hne]
      rw [this]
      exact ih hndb.2 hbt

lemma compat_lookup (ms : List Material) (bs : List Bin)
    (hndm : (materialNames ms).Nodup) (hndb : (binNames bs).Nodup)
    {m : Material} (hm : m ∈ ms) {b : Bin} (hb : b ∈ bs) :
    (compatMatrixOf ms bs).lookup (m.material, b.bin) = some (compatEntry m b) := by
  induction ms with
  | nil => cases hm
  | cons c t ih =>
    rw [materialNames, List.map_cons, List.nodup_cons] at hndm
    rw [compatMatrixOf, List.flatMap_cons]
    rcases List.mem_cons.mp hm with rfl | hmt
    · exact lookup_block_found m.material (compatEntry m) bs hndb hb _
    · have hne : m.material ≠ c.material := fun h =>
        hndm.1 (h ▸ List.mem_map_of_mem Material.material hmt)
      rw [lookup_block_skip c.material m.material b.bin hne (compatEntry c) bs _]
      exact ih hndm.2 hmt

lemma compatEntry_zero_or_one (m : Material) (b : Bin) :
    compatEntry m b = 0 ∨ compatEntry m b = 1 := by
  unfold compatEntry
  split
  · exact Or.inl rfl
  · split
    · exact Or.inl rfl
    · exact Or.inr rfl

/-- A 0/1 assignment on the notebook data that places every material in
one compatible bin (so it satisfies the coverage and compatibility
constraints); by `solve_infeasible_on_notebook_data` it necessarily
violates some bin capacity. -/
def xFeasPartial : String → String → Nat := fun i b =>
  if (i, b) ∈ ([("M1", "B1"), ("M2", "B2"), ("M3", "B3"), ("M4", "B2"),
                ("M5", "B2"), ("M6", "B3"), ("M7", "B1"), ("M8", "B2"),
                ("M9", "B3"), ("M10", "B1")] : List (String × String)) then 1 else 0

/-! ### Claim theorems -/

/-- **C1.** On the notebook's hard-coded data no feasible complete
assignment exists: the hazardous materials M3, M6, M9 (sizes 6+2+4 = 12)
are compatible only with bin B3 (capacity 10), so every 0/1 assignment
that satisfies the coverage and compatibility constraints of the model
must violate the capacity constraints.  Hence a correct solver must
report infeasibility here; the notebook instead prints a partial
assignment and an objective (see `recorded_output_violates_coverage`),
which is the code-side divergence from the claim. -/
theorem solve_infeasible_on_notebook_data (x : String → String → Nat)
    (_hbin : binaryOn materials bins x) (hcov : coverage materials bins x)
    (hcompat : compatCon materials bins x) :
    ¬ capacityCon materials bins x := by
  intro hcap
  have hz : ∀ i b, i ∈ materialNames materials → b ∈ binNames bins →
      compatibility materials bins i b = 0 → x i b = 0 := by
    intro i b hi hb hc
    have h := hcompat i hi b hb
    omega
  have z31 : x "M3" "B1" = 0 := hz _ _ (by decide) (by decide) (by decide)
  have z32 : x "M3" "B2" = 0 := hz _ _ (by decide) (by decide) (by decide)
  have z34 : x "M3" "B4" = 0 := hz _ _ (by decide) (by decide) (by decide)
  have z35 : x "M3" "B5" = 0 := hz _ _ (by decide) (by decide) (by decide)
  have z61 : x "M6" "B1" = 0 := hz _ _ (by decide) (by decide) (by decide)
  have z62 : x "M6" "B2" = 0 := hz _ _ (by decide) (by decide) (by decide)
  have z64 : x "M6" "B4" = 0 := hz _ _ (by decide) (by decide) (by decide)
  have z65 : x "M6" "B5" = 0 := hz _ _ (by decide) (by decide) (by decide)
  have z91 : x "M9" "B1" = 0 := hz _ _ (by decide) (by decide) (by decide)
  have z92 : x "M9" "B2" = 0 := hz _ _ (by decide) (by decide) (by decide)
  have z94 : x "M9" "B4" = 0 := hz _ _ (by decide) (by decide) (by decide)
  have z95 : x "M9" "B5" = 0 := hz _ _ (by decide) (by decide) (by decide)
  have h3 := hcov "M3" (by decide)
  have h6 := hcov "M6" (by decide)
  have h9 := hcov "M9" (by decide)
  have hbn : binNames bins = ["B1", "B2", "B3", "B4", "B5"] := by decide
  rw [hbn] at h3 h6 h9
  simp only [List.map_cons, List.map_nil, List.sum_cons, List.sum_nil] at h3 h6 h9
  have hc3 := hcap "B3" (by decide)
  have hmn : materialNames materials =
      ["M1", "M2", "M3", "M4", "M5", "M6", "M7", "M8", "M9", "M10"] := by decide
  rw [hmn] at hc3
  simp only [List.map_cons, List.map_nil, List.sum_cons, List.sum_nil] at hc3
  have s1 : sizeLookup materials "M1" = 5 := by decide
  have s2 : sizeLookup materials "M2" = 4 := by decide
  have s3 : sizeLookup materials "M3" = 6 := by decide
  have s4 : sizeLookup materials "M4" = 7 := by decide
  have s5 : sizeLookup materials "M5" = 3 := by decide
  have s6 : sizeLookup materials "M6" = 2 := by decide
  have s7 : sizeLookup materials "M7" = 6 := by decide
  have s8 : sizeLookup materials "M8" = 5 := by decide
  have s9 : sizeLookup materials "M9" = 4 := by decide
  have s10 : sizeLookup materials "M10" = 6 := by decide
  have hcl : capLookup bins "B3" = 10 := by decide
  rw [s1, s2, s3, s4, s5, s6, s7, s8, s9, s10, hcl] at hc3
  omega

/-- Witness for `solve_infeasible_on_notebook_data`: the concrete
assignment `xFeasPartial` satisfies the binary, coverage and
compatibility hypotheses on the notebook data, and the theorem then
yields that it breaks a capacity constraint. -/
theorem solve_infeasible_on_notebook_data_witness :
    binaryOn materials bins xFeasPartial ∧ coverage materials bins xFeasPartial ∧
      compatCon materials bins xFeasPartial ∧
      ¬ capacityCon materials bins xFeasPartial :=
  ⟨by decide, by decide, by decide,
    solve_infeasible_on_notebook_data xFeasPartial (by decide) (by decide) (by decide)⟩

/-- **C6** (code-bug evidence).  The assignment the notebook's recorded
run prints violates the notebook's own coverage constraint
(`lpSum(x[i][b] for b) == 1` for every material): materials M7 and M9
are in the catalog but appear in no bin, so their variable sums are 0,
not 1. -/
theorem recorded_output_violates_coverage :
    "M7" ∈ materialNames materials ∧ "M9" ∈ materialNames materials ∧
      ((binNames bins).map (fun b => recordedAssign "M7" b)).sum = 0 ∧
      ((binNames bins).map (fun b => recordedAssign "M9" b)).sum = 0 ∧
      ¬ coverage materials bins recordedAssign := by decide

/-- **C2.** For every catalog with distinct identifiers and every 0/1
valuation of the model's variables — in particular the valuation a
solver returns for a feasible model — the objective expression the
notebook builds and reports (`lpSum(x[i][b] * frequency[i] *
distance[b])`, printed via `value(model.objective)`) is exactly equal to
the objective recomputed independently from the returned assignment as
Σ over assigned items of `frequency × distance`.  The equality is exact
on the integral data, so the two values agree within any tolerance and
the specification's `ConsistencyError` branch can never fire. -/
theorem objective_equals_recomputed (ms : List Material) (bs : List Bin)
    (x : String → String → Nat)
    (hndm : (materialNames ms).Nodup) (hndb : (binNames bs).Nodup)
    (hbin : binaryOn ms bs x) :
    objectiveVal ms bs x = recomputedObjective ms bs x := by
  unfold objectiveVal recomputedObjective
  rw [materialNames, List.map_map]
  refine congrArg List.sum (List.map_congr_left ?_)
  intro m hm
  simp only [Function.comp_apply]
  rw [binNames, List.map_map]
  have hf : freqLookup ms m.material = m.frequency := by
    unfold freqLookup
    rw [find_key_eq_self Material.material hndm hm]
    rfl
  have h1 : bs.map ((fun b => x m.material b * freqLookup ms m.material *
        distLookup bs b) ∘ Bin.bin) =
      bs.map (fun b => x m.material b.bin * (m.frequency * b.distance)) := by
    refine List.map_congr_left ?_
    intro b hb
    have hd : distLookup bs b.bin = b.distance := by
      unfold distLookup
      rw [find_key_eq_self Bin.bin hndb hb]
      rfl
    simp only [Function.comp_apply, hf, hd, Nat.mul_assoc]
  rw [h1]
  exact sum_map_mul_binary bs (fun b => x m.material b.bin)
    (fun b => m.frequency * b.distance)
    (fun b hb => hbin m.material (List.mem_map_of_mem Material.material hm)
      b.bin (List.mem_map_of_mem Bin.bin hb))

/-- Witness for `objective_equals_recomputed`: on the notebook's own
catalog and the concrete assignment `xFeasPartial`, both the model's
objective expression and the independent recomputation evaluate to 37. -/
theorem objective_equals_recomputed_witness :
    objectiveVal materials bins xFeasPartial =
        recomputedObjective materials bins xFeasPartial ∧
      objectiveVal materials bins xFeasPartial = 37 :=
  ⟨objective_equals_recomputed materials bins xFeasPartial
      (by decide) (by decide) (by decide),
    by decide⟩

/-- **C4.** For every catalog with distinct identifiers and every
assignment satisfying the model the notebook builds, no bin is
over-filled: the total size of the materials placed in a bin never
exceeds that bin's capacity, where the total is recomputed directly from
the assignment (sum of `size` over the materials whose variable for that
bin is 1). -/
theorem capacity_invariant_of_feasible (ms : List Material) (bs : List Bin)
    (x : String → String → Nat)
    (hndm : (materialNames ms).Nodup) (hndb : (binNames bs).Nodup)
    (hfeas : feasible ms bs x) :
    ∀ b ∈ bs, ((ms.filter (fun m => x m.material b.bin = 1)).map
      Material.size).sum ≤ b.capacity := by
  intro b hb
  obtain ⟨hbin, _, hcap, _⟩ := hfeas
  have h := hcap b.bin (List.mem_map_of_mem Bin.bin hb)
  rw [materialNames, List.map_map] at h
  have hcapl : capLookup bs b.bin = b.capacity := by
    unfold capLookup
    rw [find_key_eq_self Bin.bin hndb hb]
    rfl
  rw [hcapl] at h
  have hmap : ms.map ((fun i => x i b.bin * sizeLookup ms i) ∘ Material.material) =
      ms.map (fun m => x m.material b.bin * m.size) := by
    refine List.map_congr_left ?_
    intro m hm
    have hs : sizeLookup ms m.material = m.size := by
      unfold sizeLookup
      rw [find_key_eq_self Material.material hndm hm]
      rfl
    simp only [Function.comp_apply, hs]
  rw [hmap] at h
  rw [sum_map_mul_binary ms (fun m => x m.material b.bin) Material.size
    (fun m hm => hbin m.material (List.mem_map_of_mem Material.material hm)
      b.bin (List.mem_map_of_mem Bin.bin hb))] at h
  exact h

/-- A one-material catalog (the specification's §8 scenario: fragile M1
into safe B1) on which the full model is satisfiable; used to exercise
the invariant theorems at a concrete feasible input. -/
def msFeas : List Material := [⟨"M1", 3, 5, "fragile"⟩]

/-- The one-bin catalog that goes with `msFeas`. -/
def bsFeas : List Bin := [⟨"B1", 15, 1, "safe"⟩]

/-- The assignment placing M1 in B1. -/
def xOne : String → String → Nat := fun i b =>
  if i = "M1" ∧ b = "B1" then 1 else 0

/-- Witness for `capacity_invariant_of_feasible`: on the catalog
`msFeas`/`bsFeas` the assignment `xOne` satisfies the whole model, and
the theorem bounds B1's recomputed load (5) by its capacity (15). -/
theorem capacity_invariant_of_feasible_witness :
    ((msFeas.filter (fun m => xOne m.material "B1" = 1)).map
      Material.size).sum ≤ 15 :=
  capacity_invariant_of_feasible msFeas bsFeas xOne (by decide) (by decide)
    (by decide) ⟨"B1", 15, 1, "safe"⟩ (by decide)

/-- **C5.** For every catalog with distinct identifiers and every
assignment satisfying the model the notebook builds, no material is
placed in a bin whose compatibility entry is 0: whenever the variable of
a (material, bin) pair is 1, the compatibility rule evaluates to 1 on
that pair. -/
theorem compat_invariant_of_feasible (ms : List Material) (bs : List Bin)
    (x : String → String → Nat)
    (hndm : (materialNames ms).Nodup) (hndb : (binNames bs).Nodup)
    (hfeas : feasible ms bs x) :
    ∀ m ∈ ms, ∀ b ∈ bs, x m.material b.bin = 1 → compatEntry m b = 1 := by
  intro m hm b hb hx1
  obtain ⟨_, _, _, hcc⟩ := hfeas
  have h := hcc m.material (List.mem_map_of_mem Material.material hm)
    b.bin (List.mem_map_of_mem Bin.bin hb)
  have hl : compatibility ms bs m.material b.bin = compatEntry m b := by
    unfold compatibility
    rw [compat_lookup ms bs hndm hndb hm hb]
    rfl
  rw [hl, hx1] at h
  rcases compatEntry_zero_or_one m b with h0 | h1
  · omega
  · exact h1

/-- Witness for `compat_invariant_of_feasible`: on `msFeas`/`bsFeas`
with the feasible assignment `xOne`, the theorem yields that the placed
pair (M1, B1) is compatible. -/
theorem compat_invariant_of_feasible_witness :
    compatEntry ⟨"M1", 3, 5, "fragile"⟩ ⟨"B1", 15, 1, "safe"⟩ = 1 :=
  compat_invariant_of_feasible msFeas bsFeas xOne (by decide) (by decide)
    (by decide) ⟨"M1", 3, 5, "fragile"⟩ (by decide)
    ⟨"B1", 15, 1, "safe"⟩ (by decide) (by decide)

/-- **C3** (counterexample to the claim as stated).  The pair
(M1, B2) is incompatible (fragile material, regular bin: its matrix
entry is 0), yet the notebook's `LpVariable.dicts` call creates a
decision variable for it, and the notebook adds an explicit per-pair
inequality constraint `x[M1][B2] <= compatibility[(M1, B2)]` for it, so
incompatible pairs are neither structurally excluded nor free of
explicit restricting constraints. -/
theorem incompatible_pair_has_variable_and_constraint :
    ("M1", "B2") ∈ modelVariables materials bins ∧
      compatibility materials bins "M1" "B2" = 0 ∧
      ("M1", "B2") ∈ compatConstraintPairs materials bins := by decide

/-- **C3** (amended).  The model the notebook builds contains one
decision variable for every one of the 10 × 5 = 50 (material, bin)
pairs, including the incompatible ones (only 29 of the 50 compatibility
entries are 1), and it restricts incompatible pairs with one explicit
inequality constraint `x[i][b] <= compatibility[(i, b)]` per pair — the
constraint loop ranges over exactly the same 50 pairs as the variable
dictionary. -/
theorem model_builds_all_pairs_with_explicit_compat :
    (modelVariables materials bins).length = 50 ∧
      compatConstraintPairs materials bins = modelVariables materials bins ∧
      (compatMatrix.filter (fun p => p.snd = 1)).length = 29 := by decide

/-- **C7** (counterexample to the claim as stated).  On the recorded
run's printed assignment, material M7 is in the catalog but the output
loop prints no line at all for it: the report consists only of
`material -> bin` lines for pairs whose variable is 1, so an unassigned
material is silently omitted rather than surfaced with an "unassigned"
marker. -/
theorem report_silently_omits_M7 :
    "M7" ∈ materialNames materials ∧
      ∀ p ∈ reportLines recordedAssign, p.fst ≠ "M7" := by decide

/-- **C7** (amended).  A material appears in the notebook's printed
report exactly when some bin variable of that material has value 1; in
particular a material that received no bin is absent from the report,
and no "unassigned" marker of any kind exists. -/
theorem report_contains_item_iff_assigned (x : String → String → Nat)
    (i : String) :
    (∃ p ∈ reportLines x, p.fst = i) ↔
      (i ∈ materialNames materials ∧ ∃ b ∈ binNames bins, x i b = 1) := by
  unfold reportLines
  constructor
  · rintro ⟨p, hp, hfst⟩
    rw [List.mem_flatMap] at hp
    obtain ⟨j, hj, hpj⟩ := hp
    rw [List.mem_map] at hpj
    obtain ⟨b, hb, rfl⟩ := hpj
    rw [List.mem_filter] at hb
    subst hfst
    exact ⟨hj, b, hb.1, of_decide_eq_true hb.2⟩
  · rintro ⟨hi, b, hb, hx⟩
    refine ⟨(i, b), ?_, rfl⟩
    rw [List.mem_flatMap]
    exact ⟨i, hi, List.mem_map_of_mem _ (List.mem_filter.mpr ⟨hb, decide_eq_true hx⟩)⟩

/-- Witness for `report_contains_item_iff_assigned` at the recorded run
and material M1: M1 appears in the printed report precisely because its
B1 variable is 1. -/
theorem report_contains_item_iff_assigned_witness :
    (∃ p ∈ reportLines recordedAssign, p.fst = "M1") ↔
      ("M1" ∈ materialNames materials ∧
        ∃ b ∈ binNames bins, recordedAssign "M1" b = 1) :=
  report_contains_item_iff_assigned recordedAssign "M1"

/-- **C8.** The compatibility rule is default-allow: when neither the
fragile rule nor the hazardous rule applies, the `else` branch records
1.  In particular every material of the notebook whose category is
`regular` is recorded compatible with every bin. -/
theorem regular_items_compatible_with_all_bins :
    (∀ (m : Material) (b : Bin), m.tag ≠ "fragile" → m.tag ≠ "hazardous" →
        compatEntry m b = 1) ∧
      (∀ m ∈ materials, m.tag = "regular" → ∀ b ∈ bins,
        compatibility materials bins m.material b.bin = 1) := by
  constructor
  · intro m b hf hh
    simp [compatEntry, hf, hh]
  · decide

/-- Witness for `regular_items_compatible_with_all_bins`: the regular
material M2 is compatible with the special bin B3. -/
theorem regular_items_compatible_with_all_bins_witness :
    compatEntry ⟨"M2", 1, 4, "regular"⟩ ⟨"B3", 10, 3, "special"⟩ = 1 :=
  regular_items_compatible_with_all_bins.1 _ _ (by decide) (by decide)

/-- **C9.** The compatibility dictionary is exactly characterized: for
every (material, bin) pair of the notebook's catalog, its entry is 1 if
and only if (the material is not fragile or the bin is of safe type)
and (the material is not hazardous or the bin is of special type) —
equivalently, fragile materials are compatible precisely with safe bins
and hazardous materials precisely with special bins. -/
theorem compat_matrix_characterization :
    ∀ m ∈ materials, ∀ b ∈ bins,
      (compatMatrix.lookup (m.material, b.bin) = some 1 ↔
        ((m.tag ≠ "fragile" ∨ b.btype = "safe") ∧
          (m.tag ≠ "hazardous" ∨ b.btype = "special"))) := by decide

/-- Witness for `compat_matrix_characterization` at the pair (M1, B1):
the fragile material M1 and the safe bin B1. -/
theorem compat_matrix_characterization_witness :
    compatMatrix.lookup ("M1", "B1") = some 1 ↔
      ((("fragile" : String) ≠ "fragile" ∨ ("safe" : String) = "safe") ∧
        (("fragile" : String) ≠ "hazardous" ∨ ("safe" : String) = "special")) :=
  compat_matrix_characterization ⟨"M1", 3, 5, "fragile"⟩ (by decide)
    ⟨"B1", 15, 1, "safe"⟩ (by decide)

/-- **C10.** The compatibility entry of a pair depends only on the
material's tag and the bin's type: any two materials with equal tags and
any two bins with equal types yield equal entries, whatever their
identifiers, sizes, frequencies, capacities or distances.  Moreover the
notebook's dictionary is total: it has one entry for each of the
10 × 5 = 50 pairs, each entry is the rule's value on that pair, and
every recorded value is 0 or 1. -/
theorem compat_depends_only_on_tag_and_type :
    (∀ (m1 m2 : Material) (b1 b2 : Bin), m1.tag = m2.tag →
        b1.btype = b2.btype → compatEntry m1 b1 = compatEntry m2 b2) ∧
      (∀ m ∈ materials, ∀ b ∈ bins,
        compatMatrix.lookup (m.material, b.bin) = some (compatEntry m b)) ∧
      compatMatrix.length = 50 ∧
      (∀ p ∈ compatMatrix, p.snd = 0 ∨ p.snd = 1) := by
  refine ⟨?_, by decide, by decide, by decide⟩
  intro m1 m2 b1 b2 ht hb
  unfold compatEntry
  rw [ht, hb]

/-- Witness for `compat_depends_only_on_tag_and_type`: the fragile
materials M1 and M7 get the same entry against the safe bins B1 and B5
although identifier, frequency, size, capacity and distance all differ. -/
theorem compat_depends_only_on_tag_and_type_witness :
    compatEntry ⟨"M1", 3, 5, "fragile"⟩ ⟨"B1", 15, 1, "safe"⟩ =
      compatEntry ⟨"M7", 3, 6, "fragile"⟩ ⟨"B5", 12, 4, "safe"⟩ :=
  compat_depends_only_on_tag_and_type.1 _ _ _ _ (by decide) (by decide)

end BinAssign
